import Mathlib

/-!
Verification of the gen_net repository's message/agent model against its
natural-language specification.

The repository's source provides `abstract.py` (base entity with id
generation and textual dump), `openai.py` (completion parsing),
`test_message.py` (tests of the message graph and textual round-trip), and
`llegos/fipa/contract_net.py` (the Contract Net protocol wiring).  The
modules `gen_net.messages`, `gen_net.llegos.networks` and
`gen_net.llegos.asyncio` are referenced but absent; where a claim depends on
them, the corresponding definition is modelled from the spec and says so in
its doc comment.
-/

namespace GenNet

/-- The Message record, fields per the spec's data model (id, sender,
receiver, method, reply_to, metadata) plus the `content` field used by
`UserMessage` in `test_message.py`.  `metadata` is an open string-to-string
mapping, kept as an association list. -/
structure Message where
  id : String
  sender : String
  receiver : Option String
  method : String
  reply_to : Option String
  content : String
  metadata : List (String × String)
deriving Repr, DecidableEq

/-! ## Identifier generation (src/gen_net/abstract.py) -/

/-- Modelled from the spec: the `uuid4()` randomness of
`AbstractObject.__init__` is represented as an injected identifier-generator
capability (spec §9: "represent as an injected identifier-generator
capability"), drawing from a counter; the only properties used are that
successive draws are distinct, non-empty and contain no colon. -/
def uuid4 (n : Nat) : String :=
  String.mk (List.replicate (n + 1) 'f')

/-- The id-assignment logic of `AbstractObject.__init__`
(src/gen_net/abstract.py lines 15-18): a falsy (empty) provided id is
replaced by `ClassName + ":" + uuid4()`; a non-empty provided id is kept. -/
def initId (className : String) (provided : String) (supply : Nat) : String :=
  if provided = "" then className ++ ":" ++ uuid4 supply else provided

/-! ## Message graph (module `gen_net.messages`, absent from src) -/

/-- A message graph is kept as its list of causal edges
`(child id, parent id)`, one per `reply_to` link, in input order. -/
structure MessageGraph where
  edges : List (String × String)
deriving Repr, DecidableEq

/-- Modelled from the spec: `message_graph` of the absent
`gen_net.messages` module builds a graph over the messages' `reply_to`
links, processing its input once, in order; per spec §4.1 "the source
performs no such validation" of dangling `reply_to` targets, so the builder
is total and records every causal edge as given. -/
def message_graph (msgs : List Message) : MessageGraph :=
  ⟨msgs.filterMap (fun m => m.reply_to.map (fun r => (m.id, r)))⟩

/-- Bounded reachability along directed edges: `reach es fuel a b` is true
when `b` is reachable from `a` by one or more `es`-edges within `fuel`
steps. -/
def reach (es : List (String × String)) : Nat → String → String → Bool
  | 0, _, _ => false
  | fuel + 1, a, b =>
      es.any (fun e => e.1 == a && (e.2 == b || reach es fuel e.2 b))

/-- Modelled from the spec: `has_predecessor(a, b)` is "true iff `b` is an
ancestor of `a` along `reply_to` edges (direct or transitive)" (spec §3).
The fuel equals the edge count, enough for any direct or composite link
used by the protocol. -/
def MessageGraph.has_predecessor (g : MessageGraph) (m anc : Message) : Bool :=
  reach g.edges g.edges.length m.id anc.id

/-! ## Message kinds and role capabilities (contract_net.py) -/

/-- The Message subtypes declared in src/gen_net/llegos/fipa/contract_net.py
lines 17-58, one per `method` tag. -/
inductive MsgKind
  | cfp
  | accept
  | refuse
  | propose
  | acceptProposal
  | rejectProposal
  | failure
  | informDone
  | informResult
  | request
  | response
deriving Repr, DecidableEq, Fintype

/-- `Participant.receivable_messages` (contract_net.py line 73):
`{CFP, RejectProposal, AcceptProposal, Failure}`. -/
def Participant.receivable_messages : List MsgKind :=
  [.cfp, .rejectProposal, .acceptProposal, .failure]

/-- `Initiator.receivable_messages` (contract_net.py line 94):
`{Propose, Refuse, InformDone, InformResult, Failure}`. -/
def Initiator.receivable_messages : List MsgKind :=
  [.propose, .refuse, .informDone, .informResult, .failure]

/-- The Participant receivable set as the spec sentence (and claim C4)
states it: `{CFP, AcceptProposal, RejectProposal}`.  Kept separate for
comparison with the set the source declares. -/
def claimedParticipantSet : List MsgKind :=
  [.cfp, .acceptProposal, .rejectProposal]

/-- The Initiator receivable set as the spec sentence (and claim C4)
states it: `{Propose, InformDone, InformResult, Failure}`. -/
def claimedInitiatorSet : List MsgKind :=
  [.propose, .informDone, .informResult, .failure]

/-! ## ContractNet construction (contract_net.py lines 126-133) -/

/-- A participating agent, reduced to its identity (the only part of the
absent `NetworkAgent` the protocol wiring reads). -/
structure Agent where
  id : String
deriving Repr, DecidableEq

/-- The validated ContractNet topology: one manager, a non-empty contractor
list, and the links `(manager, "contractor", c)` built by `__init__`. -/
structure ContractNet where
  manager : Agent
  contractors : List Agent
  links : List (Agent × String × Agent)
deriving Repr, DecidableEq

/-- ContractNet construction.  The field declaration
`contractors: list[Participant] = Field(min_items=1)` (contract_net.py line
128) makes pydantic reject an empty contractor list at construction time;
that validation (inside the absent `GenNetwork` base via pydantic) is
modelled from pydantic's documented `min_items` semantics.  `__init__`
(lines 130-133) builds one `(manager, "contractor", c)` link per
contractor.  Message building happens only in `request`, which needs a
constructed net, so a validation failure precedes any message. -/
def ContractNet.build (manager : Agent) (contractors : List Agent) :
    Except String ContractNet :=
  if contractors.length < 1 then
    Except.error "ValidationError: contractors: ensure this value has at least 1 items"
  else
    Except.ok ⟨manager, contractors,
      contractors.map (fun c => (manager, "contractor", c))⟩

/-! ## Message derivation: forward (module `gen_net.llegos.networks`, absent) -/

/-- Modelled from the spec: `forward(msg, **overrides)` of the absent
`gen_net.llegos.networks.Message` produces a new message with
`reply_to = msg.id` ("`forward` additionally copies `sender`/`receiver`/
`metadata` unless overridden", spec §3), each routing field taken from the
override when one is given and from `msg` otherwise, and an id freshly
assigned by `AbstractObject.__init__` (the new object is constructed
without an id).  `cls` is the target message class's name and its hard-coded
`method` tag is passed as `methodO` when the class fixes one. -/
def forward (msg : Message)
    (senderO : Option String) (receiverO : Option (Option String))
    (methodO : Option String) (metadataO : Option (List (String × String)))
    (cls : String) (supply : Nat) : Message :=
  { id := initId cls "" supply
    sender := senderO.getD msg.sender
    receiver := receiverO.getD msg.receiver
    method := methodO.getD msg.method
    reply_to := some msg.id
    content := msg.content
    metadata := metadataO.getD msg.metadata }

/-- The CFP batch built by `ContractNet.request` (contract_net.py lines
136-139): `[CFP.forward(message, sender=self.manager, receiver=c) for c in
self.contractors]`, one fresh id per element.  The batch is a plain list
comprehension, fully built before the propagation loop starts. -/
def buildCFPs (managerId : String) (msg : Message) :
    List Agent → Nat → List Message
  | [], _ => []
  | c :: cs, supply =>
      forward msg (some managerId) (some (some c.id)) (some "cfp") none
        "CFP" supply :: buildCFPs managerId msg cs (supply + 1)

/-- The CFP fan-out of `ContractNet.request` on a given net. -/
def ContractNet.requestCFPs (net : ContractNet) (msg : Message) (supply : Nat) :
    List Message :=
  buildCFPs net.manager.id msg net.contractors supply

/-- The yield loop of `ContractNet.request` (contract_net.py lines
140-142): `async for reply in propogate_all(messages): if (yield reply) is
StopAsyncIteration: break`.  `replies` is the sequence `propogate_all`
produces (`gen_net.llegos.asyncio` is absent, so the sequence is left
arbitrary); `consumer k` is true when the consumer answers the k-th
(0-indexed) yielded message by sending `StopAsyncIteration`.  The result is
the list of messages the generator yields. -/
def yieldLoop (consumer : Nat → Bool) : List Message → Nat → List Message
  | [], _ => []
  | r :: rs, k =>
      if consumer k then [r] else r :: yieldLoop consumer rs (k + 1)

/-! ## Textual rendering and parsing (abstract.py line 20-21, spec §6)

`AbstractObject.__str__` dumps the record as an order-preserving key/value
text (`yaml.dump(self.dict(), sort_keys=False)`), and `test_message_str`
asserts the text parses back to the original dict.  The yaml library and
the `gen_net.messages.Message` class are absent from src, so the concrete
text format is modelled from spec §6: "a stable, order-preserving,
human-readable key/value textual form (field order = declaration order)"
that "round-trips back to an equivalent in-memory record field-for-field".
One line per scalar field, values escaped so a value never contains a raw
newline; metadata entries follow as marked two-line groups. -/

/-- Escape one character: backslash and newline get two-character escape
sequences, every other character stands for itself. -/
def escChar (c : Char) : List Char :=
  if c = '\\' then ['\\', '\\']
  else if c = '\n' then ['\\', 'n']
  else [c]

/-- Escape a character sequence so that it contains no raw newline. -/
def esc (s : List Char) : List Char :=
  (s.map escChar).flatten

/-- Render one string value as an escaped, newline-terminated line body. -/
def pstr (s : String) : List Char :=
  esc s.data ++ ['\n']

/-- Render an optional string value: `~` for absent (as yaml renders
`None`), otherwise a `!`-marked escaped value. -/
def popt : Option String → List Char
  | none => ['~', '\n']
  | some s => '!' :: pstr s

/-- Render the metadata mapping: each entry is an `e`-marked group of a key
line and a value line. -/
def pmeta : List (String × String) → List Char
  | [] => []
  | (k, v) :: rest => 'e' :: '\n' :: (pstr k ++ pstr v ++ pmeta rest)

/-- The characters of a literal key prefix. -/
def lit (s : String) : List Char :=
  s.data

/-- The full textual dump of a Message: fields in declaration order, each
introduced by its key. -/
def dumpMessage (m : Message) : List Char :=
  lit "id: " ++ pstr m.id ++
  lit "sender: " ++ pstr m.sender ++
  lit "receiver: " ++ popt m.receiver ++
  lit "method: " ++ pstr m.method ++
  lit "reply_to: " ++ popt m.reply_to ++
  lit "content: " ++ pstr m.content ++
  lit "metadata:\n" ++ pmeta m.metadata

/-- Consume one escaped line body, undoing `esc`, returning the decoded
string and the rest of the input. -/
def parseStr : List Char → Option (List Char × List Char)
  | [] => none
  | c :: rest =>
      if c = '\n' then some ([], rest)
      else if c = '\\' then
        match rest with
        | [] => none
        | d :: rest2 =>
            (parseStr rest2).map
              (fun p => ((if d = 'n' then '\n' else d) :: p.1, p.2))
      else (parseStr rest).map (fun p => (c :: p.1, p.2))

/-- Consume an optional value in the `popt` form. -/
def parseOpt : List Char → Option (Option String × List Char)
  | '~' :: '\n' :: rest => some (none, rest)
  | '!' :: rest => (parseStr rest).map (fun p => (some (String.mk p.1), p.2))
  | _ => none

/-- Consume an exact literal prefix. -/
def parseLit : List Char → List Char → Option (List Char)
  | [], input => some input
  | _ :: _, [] => none
  | c :: cs, d :: input => if c = d then parseLit cs input else none

/-- Consume metadata entry groups until the input ends.  `fuel` bounds the
number of groups; the input's length is always enough. -/
def parseMeta : Nat → List Char → Option (List (String × String))
  | _, [] => some []
  | 0, _ :: _ => none
  | fuel + 1, input =>
      match input with
      | 'e' :: '\n' :: rest =>
          match parseStr rest with
          | none => none
          | some (k, rest2) =>
              match parseStr rest2 with
              | none => none
              | some (v, rest3) =>
                  match parseMeta fuel rest3 with
                  | none => none
                  | some ms => some ((String.mk k, String.mk v) :: ms)
      | _ => none

/-- Parse a full Message dump back into a Message record. -/
def parseMessage (input : List Char) : Option Message :=
  match parseLit (lit "id: ") input with
  | none => none
  | some r1 =>
  match parseStr r1 with
  | none => none
  | some (i, r2) =>
  match parseLit (lit "sender: ") r2 with
  | none => none
  | some r3 =>
  match parseStr r3 with
  | none => none
  | some (s, r4) =>
  match parseLit (lit "receiver: ") r4 with
  | none => none
  | some r5 =>
  match parseOpt r5 with
  | none => none
  | some (rcv, r6) =>
  match parseLit (lit "method: ") r6 with
  | none => none
  | some r7 =>
  match parseStr r7 with
  | none => none
  | some (mth, r8) =>
  match parseLit (lit "reply_to: ") r8 with
  | none => none
  | some r9 =>
  match parseOpt r9 with
  | none => none
  | some (rt, r10) =>
  match parseLit (lit "content: ") r10 with
  | none => none
  | some r11 =>
  match parseStr r11 with
  | none => none
  | some (cnt, r12) =>
  match parseLit (lit "metadata:\n") r12 with
  | none => none
  | some r13 =>
  match parseMeta r13.length r13 with
  | none => none
  | some md =>
      some ⟨String.mk i, String.mk s, rcv, String.mk mth, rt,
        String.mk cnt, md⟩

/-! ## Completion parsing (src/gen_net/openai.py) -/

/-- A Python-level error surfaced by the completion-parsing helpers. -/
inductive PyErr
  | keyError (key : String)
  | assertionError
  | indexError
deriving Repr, DecidableEq

/-- The `function_call` payload of a completion choice. -/
structure FnCall where
  name : String
  arguments : String
deriving Repr, DecidableEq

/-- One completion choice; `content` and `message` are dict-like objects in
which a `function_call` entry may or may not be present. -/
structure Choice where
  content : List (String × FnCall)
  message : List (String × FnCall)
deriving Repr, DecidableEq

/-- A completion value with its list of choices. -/
structure Completion where
  choices : List Choice
deriving Repr, DecidableEq

/-- Python subscription `d[k]` on a dict: a missing key raises KeyError. -/
def getItem (d : List (String × FnCall)) (k : String) : Except PyErr FnCall :=
  match d.lookup k with
  | some v => Except.ok v
  | none => Except.error (PyErr.keyError k)

/-- Python subscription `xs[0]` on a list: an empty list raises IndexError. -/
def getFirst (xs : List Choice) : Except PyErr Choice :=
  match xs.head? with
  | some x => Except.ok x
  | none => Except.error PyErr.indexError

/-- `parse_completion_kwargs` (openai.py lines 23-25): reads
`completion.choices[0].message["function_call"]["arguments"]` and
json-decodes it; `json.loads` is external and modelled as returning the
argument text unchanged. -/
def parse_completion_kwargs (c : Completion) : Except PyErr String := do
  let choice ← getFirst c.choices
  let fc ← getItem choice.message "function_call"
  return fc.arguments

/-- `parse_completion_fn_call` (openai.py lines 28-40): reads the first
choice's `content`; when `throw_error` is set it asserts that a
`function_call` entry exists and (when `fn_name` is given) that its name
matches; then unconditionally subscripts `response["function_call"]` to
read the name, and pairs it with `parse_completion_kwargs`. -/
def parse_completion_fn_call (c : Completion) (fn_name : Option String)
    (throw_error : Bool) : Except PyErr (String × String) := do
  let choice ← getFirst c.choices
  let response := choice.content
  if throw_error then
    if (response.lookup "function_call").isSome then
      pure ()
    else
      throw PyErr.assertionError
    match fn_name with
    | some f => do
        let fc ← getItem response "function_call"
        if fc.name = f then pure () else throw PyErr.assertionError
    | none => pure ()
  let fc ← getItem response "function_call"
  let kwargs ← parse_completion_kwargs c
  return (fc.name, kwargs)

/-- A sample message whose id was drawn from the generator at counter 0,
used by concrete witnesses. -/
def sampleGen : Message :=
  ⟨initId "Message" "" 0, "alice", none, "chat", none, "hi", [("foo", "bar")]⟩

/-- A second sample message for witnesses. -/
def sampleB : Message :=
  ⟨"Message:b", "bob", none, "chat", none, "yo", []⟩

/-! ## Helper lemmas -/

theorem str_ext {s t : String} (h : s.data = t.data) : s = t := by
  cases s
  cases t
  exact congrArg String.mk h

theorem split_colon :
    ∀ (a b u v : List Char), ':' ∉ a → ':' ∉ b →
      a ++ ':' :: u = b ++ ':' :: v → a = b ∧ u = v := by
  intro a
  induction a with
  | nil =>
    intro b u v _ hb h
    cases b with
    | nil => simpa using h
    | cons y ys =>
      simp only [List.nil_append, List.cons_append, List.cons.injEq] at h
      exact absurd (show ':' ∈ y :: ys by
        rw [h.1]; exact List.mem_cons_self y ys) hb
  | cons x xs ih =>
    intro b u v ha hb h
    cases b with
    | nil =>
      simp only [List.nil_append, List.cons_append, List.cons.injEq] at h
      exact absurd (show ':' ∈ x :: xs by
        rw [h.1]; exact List.mem_cons_self ':' xs) ha
    | cons y ys =>
      simp only [List.cons_append, List.cons.injEq] at h
      have hxs : ':' ∉ xs := fun hm => ha (List.mem_cons_of_mem x hm)
      have hys : ':' ∉ ys := fun hm => hb (List.mem_cons_of_mem y hm)
      obtain ⟨he, hu⟩ := ih ys u v hxs hys h.2
      exact ⟨by rw [h.1, he], hu⟩

theorem uuid4_data (n : Nat) : (uuid4 n).data = List.replicate (n + 1) 'f' := rfl

theorem colon_not_mem_uuid4 (n : Nat) : ':' ∉ (uuid4 n).data := by
  rw [uuid4_data]
  intro h
  have := (List.eq_of_mem_replicate h)
  simp at this

theorem uuid4_inj {n m : Nat} (h : uuid4 n = uuid4 m) : n = m := by
  have hl := congrArg (fun s => s.data.length) h
  simp [uuid4_data] at hl
  exact hl

theorem initId_eq (c : String) (n : Nat) :
    initId c "" n = c ++ ":" ++ uuid4 n := by
  simp [initId]

theorem initId_data (c : String) (n : Nat) :
    (initId c "" n).data = c.data ++ ':' :: (uuid4 n).data := by
  rw [initId_eq]
  simp [String.data_append]

theorem initId_inj {c1 c2 : String} {n m : Nat}
    (h1 : ':' ∉ c1.data) (h2 : ':' ∉ c2.data)
    (h : initId c1 "" n = initId c2 "" m) : c1 = c2 ∧ n = m := by
  have hd := congrArg String.data h
  rw [initId_data, initId_data] at hd
  obtain ⟨hc, hu⟩ := split_colon _ _ _ _ h1 h2 hd
  exact ⟨str_ext hc, uuid4_inj (str_ext hu)⟩

theorem initId_ne_empty (c : String) (n : Nat) : initId c "" n ≠ "" := by
  intro h
  have hd := congrArg String.data h
  rw [initId_data] at hd
  simp at hd

theorem edge_mem_of_reply {msgs : List Message} {m : Message} {r : String}
    (hm : m ∈ msgs) (hr : m.reply_to = some r) :
    (m.id, r) ∈ (message_graph msgs).edges := by
  simp only [message_graph, List.mem_filterMap]
  exact ⟨m, hm, by simp [hr]⟩

theorem reach_of_edge {es : List (String × String)} {a b : String}
    (h : (a, b) ∈ es) : ∀ {f : Nat}, 0 < f → reach es f a b = true := by
  intro f hf
  cases f with
  | zero => omega
  | succ g =>
    simp only [reach, List.any_eq_true]
    exact ⟨(a, b), h, by simp⟩

theorem reach_of_two {es : List (String × String)} {a c b : String}
    (h1 : (a, c) ∈ es) (h2 : (c, b) ∈ es) :
    ∀ {f : Nat}, 2 ≤ f → reach es f a b = true := by
  intro f hf
  cases f with
  | zero => omega
  | succ g =>
    simp only [reach, List.any_eq_true]
    refine ⟨(a, c), h1, by simp [reach_of_edge h2 (show 0 < g by omega)]⟩

theorem two_mem_len {α : Type} {a b : α} :
    ∀ {l : List α}, a ∈ l → b ∈ l → a ≠ b → 2 ≤ l.length := by
  intro l ha hb hne
  cases l with
  | nil => simp at ha
  | cons x xs =>
    cases xs with
    | nil =>
      simp at ha hb
      exact absurd (ha.trans hb.symm) hne
    | cons y ys => simp

theorem yieldLoop_stop_len (consumer : Nat → Bool) :
    ∀ (rs : List Message) (start k : Nat), consumer (start + k) = true →
      (yieldLoop consumer rs start).length ≤ k + 1 := by
  intro rs
  induction rs with
  | nil =>
    intro start k _
    simp [yieldLoop]
  | cons r rs ih =>
    intro start k hstop
    cases h0 : consumer start with
    | true =>
      simp only [yieldLoop, h0, if_true, List.length_cons, List.length_nil]
      omega
    | false =>
      cases k with
      | zero =>
        rw [Nat.add_zero] at hstop
        simp [h0] at hstop
      | succ k' =>
        have harg : start + 1 + k' = start + (k' + 1) := by omega
        have hrec := ih (start + 1) k' (by rw [harg]; exact hstop)
        simp only [yieldLoop, h0, Bool.false_eq_true, if_false, List.length_cons]
        omega

theorem mk_data (s : String) : String.mk s.data = s := by
  cases s
  rfl

theorem parseStr_nl (rest : List Char) :
    parseStr ('\n' :: rest) = some ([], rest) := by
  rw [parseStr.eq_def]
  simp

theorem parseStr_bs (d : Char) (rest : List Char) :
    parseStr ('\\' :: d :: rest) =
      (parseStr rest).map (fun p => ((if d = 'n' then '\n' else d) :: p.1, p.2)) := by
  rw [parseStr.eq_def]
  simp

theorem parseStr_plain {c : Char} (h1 : c ≠ '\n') (h2 : c ≠ '\\')
    (rest : List Char) :
    parseStr (c :: rest) = (parseStr rest).map (fun p => (c :: p.1, p.2)) := by
  rw [parseStr.eq_def]
  simp [h1, h2]

theorem parseStr_esc : ∀ (s rest : List Char),
    parseStr (esc s ++ '\n' :: rest) = some (s, rest) := by
  intro s
  induction s with
  | nil =>
    intro rest
    simpa [esc] using parseStr_nl rest
  | cons c cs ih =>
    intro rest
    by_cases hb : c = '\\'
    · subst hb
      simp [esc, escChar, parseStr_bs]
      simpa [esc] using ih rest
    · by_cases hn : c = '\n'
      · subst hn
        simp [esc, escChar, parseStr_bs]
        simpa [esc] using ih rest
      · simp [esc, escChar, hb, hn, parseStr_plain hn hb]
        simpa [esc] using ih rest

theorem parseStr_pstr (s : String) (rest : List Char) :
    parseStr (pstr s ++ rest) = some (s.data, rest) := by
  have h := parseStr_esc s.data rest
  simpa [pstr, List.append_assoc] using h

theorem parseOpt_tilde (rest : List Char) :
    parseOpt ('~' :: '\n' :: rest) = some (none, rest) := rfl

theorem parseOpt_bang (l : List Char) :
    parseOpt ('!' :: l) =
      (parseStr l).map (fun p => (some (String.mk p.1), p.2)) := rfl

theorem parseOpt_popt (o : Option String) (rest : List Char) :
    parseOpt (popt o ++ rest) = some (o, rest) := by
  cases o with
  | none => simp [popt, parseOpt_tilde]
  | some s => simp [popt, parseOpt_bang, parseStr_pstr, mk_data]

theorem parseLit_self : ∀ (l input : List Char),
    parseLit l (l ++ input) = some input := by
  intro l
  induction l with
  | nil =>
    intro input
    rfl
  | cons c cs ih =>
    intro input
    simp [parseLit, ih]

theorem pmeta_len : ∀ entries : List (String × String),
    entries.length ≤ (pmeta entries).length := by
  intro entries
  induction entries with
  | nil => simp [pmeta]
  | cons e rest ih =>
    obtain ⟨k, v⟩ := e
    simp only [pmeta, List.length_cons, List.length_append]
    omega

theorem parseMeta_pmeta : ∀ (entries : List (String × String)) (fuel : Nat),
    entries.length ≤ fuel → parseMeta fuel (pmeta entries) = some entries := by
  intro entries
  induction entries with
  | nil =>
    intro fuel _
    cases fuel <;> simp [pmeta, parseMeta]
  | cons e rest ih =>
    intro fuel hf
    obtain ⟨k, v⟩ := e
    cases fuel with
    | zero => simp at hf
    | succ f =>
      have hr := ih f (by simpa using hf)
      simp [pmeta, parseMeta, parseStr_pstr, hr, mk_data, List.append_assoc]

theorem parseMeta_full (entries : List (String × String)) :
    parseMeta (pmeta entries).length (pmeta entries) = some entries :=
  parseMeta_pmeta entries _ (pmeta_len entries)

theorem buildCFPs_spec (managerId : String) (msg : Message) :
    ∀ (cs : List Agent) (supply : Nat),
      List.Forall₂ (fun (cfp : Message) (c : Agent) =>
        cfp.sender = managerId ∧ cfp.receiver = some c.id ∧
          cfp.reply_to = some msg.id ∧ cfp.method = "cfp")
        (buildCFPs managerId msg cs supply) cs := by
  intro cs
  induction cs with
  | nil =>
    intro supply
    exact List.Forall₂.nil
  | cons c cs ih =>
    intro supply
    exact List.Forall₂.cons (by simp [forward]) (ih (supply + 1))

/-! ## Claim theorems -/

/-- C1: for every ContractNet with manager and N contractors, `request(msg)`
builds exactly N CFP messages — one per contractor, with sender the
manager, receiver that contractor, and `reply_to = msg.id` — as a plain
list comprehension evaluated before any reply is consumed (the propagation
loop only starts afterwards). -/
theorem C1_request_cfps (net : ContractNet) (msg : Message) (supply : Nat) :
    (net.requestCFPs msg supply).length = net.contractors.length ∧
      List.Forall₂ (fun (cfp : Message) (c : Agent) =>
        cfp.sender = net.manager.id ∧ cfp.receiver = some c.id ∧
          cfp.reply_to = some msg.id ∧ cfp.method = "cfp")
        (net.requestCFPs msg supply) net.contractors := by
  have h := buildCFPs_spec net.manager.id msg net.contractors supply
  exact ⟨h.length_eq, h⟩

/-- C2: if the consumer answers the k-th yielded message (1-indexed) of a
`request` run with StopAsyncIteration, the loop breaks and no (k+1)-th
message is ever yielded: the yielded sequence has length at most k. -/
theorem C2_cancellation (replies : List Message) (consumer : Nat → Bool)
    (k : Nat) (hk : 1 ≤ k) (hstop : consumer (k - 1) = true) :
    (yieldLoop consumer replies 0).length ≤ k := by
  have h := yieldLoop_stop_len consumer replies 0 (k - 1)
    (by simpa using hstop)
  omega

/-- C2 witness: a concrete run of two replies where the consumer stops at
the first message yields at most one message. -/
theorem C2_cancellation_witness :
    1 ≤ 1 ∧ (fun j => j == 0) (1 - 1) = true ∧
      (yieldLoop (fun j => j == 0) [sampleGen, sampleB] 0).length ≤ 1 :=
  ⟨by decide, by decide,
    C2_cancellation [sampleGen, sampleB] (fun j => j == 0) 1 (by decide) (by decide)⟩

/-- C3: in the graph built from any ordered message collection, a message
whose `reply_to` equals another's id has that message as predecessor, and
ancestry is transitive along a two-step reply chain. -/
theorem C3_graph_ancestry (msgs : List Message) (m1 m2 m3 : Message)
    (h2 : m2 ∈ msgs) (h3 : m3 ∈ msgs)
    (e21 : m2.reply_to = some m1.id) :
    (message_graph msgs).has_predecessor m2 m1 = true ∧
      (m3.reply_to = some m2.id →
        (message_graph msgs).has_predecessor m3 m1 = true) := by
  have he2 : (m2.id, m1.id) ∈ (message_graph msgs).edges :=
    edge_mem_of_reply h2 e21
  have hlen1 : 0 < (message_graph msgs).edges.length :=
    List.length_pos.mpr (by intro h; rw [h] at he2; simp at he2)
  constructor
  · exact reach_of_edge he2 hlen1
  · intro e32
    have he3 : (m3.id, m2.id) ∈ (message_graph msgs).edges :=
      edge_mem_of_reply h3 e32
    by_cases hEq : (m3.id, m2.id) = (m2.id, m1.id)
    · have h31 : m3.id = m2.id := congrArg Prod.fst hEq
      show reach _ _ m3.id m1.id = true
      rw [h31]
      exact reach_of_edge he2 hlen1
    · exact reach_of_two he3 he2 (two_mem_len he3 he2 hEq)

/-- C3 witness: the three-message chain of `test_message_graph`, with
explicit ids. -/
theorem C3_graph_ancestry_witness :
    (⟨"m2", "bob", none, "chat", some "m1", "hi", []⟩ : Message).reply_to = some "m1" ∧
      (message_graph
        [⟨"m1", "alice", none, "chat", none, "hello", []⟩,
         ⟨"m2", "bob", none, "chat", some "m1", "hi", []⟩,
         ⟨"m3", "alice", none, "chat", some "m2", "hey", []⟩]).has_predecessor
        ⟨"m2", "bob", none, "chat", some "m1", "hi", []⟩
        ⟨"m1", "alice", none, "chat", none, "hello", []⟩ = true ∧
      (message_graph
        [⟨"m1", "alice", none, "chat", none, "hello", []⟩,
         ⟨"m2", "bob", none, "chat", some "m1", "hi", []⟩,
         ⟨"m3", "alice", none, "chat", some "m2", "hey", []⟩]).has_predecessor
        ⟨"m3", "alice", none, "chat", some "m2", "hey", []⟩
        ⟨"m1", "alice", none, "chat", none, "hello", []⟩ = true := by
  have h := C3_graph_ancestry
    [⟨"m1", "alice", none, "chat", none, "hello", []⟩,
     ⟨"m2", "bob", none, "chat", some "m1", "hi", []⟩,
     ⟨"m3", "alice", none, "chat", some "m2", "hey", []⟩]
    ⟨"m1", "alice", none, "chat", none, "hello", []⟩
    ⟨"m2", "bob", none, "chat", some "m1", "hi", []⟩
    ⟨"m3", "alice", none, "chat", some "m2", "hey", []⟩
    (by simp) (by simp) (by decide)
  exact ⟨rfl, h.1, h.2 (by decide)⟩

/-- C4 counterexample: the source's receivable sets are strictly larger
than the claim's: `Failure` is receivable by Participant (line 73) though
the claimed Participant set omits it, and `Refuse` is receivable by
Initiator (line 94) though the claimed Initiator set omits it. -/
theorem C4_counterexample :
    (MsgKind.failure ∈ Participant.receivable_messages ∧
      MsgKind.failure ∉ claimedParticipantSet) ∧
    (MsgKind.refuse ∈ Initiator.receivable_messages ∧
      MsgKind.refuse ∉ claimedInitiatorSet) := by
  decide

/-- C4 amended: Participant's receivable message set is exactly
`{CFP, RejectProposal, AcceptProposal, Failure}` and Initiator's is exactly
`{Propose, Refuse, InformDone, InformResult, Failure}`. -/
theorem C4_receivable_sets :
    (∀ k : MsgKind, k ∈ Participant.receivable_messages ↔
      (k = .cfp ∨ k = .rejectProposal ∨ k = .acceptProposal ∨ k = .failure)) ∧
    (∀ k : MsgKind, k ∈ Initiator.receivable_messages ↔
      (k = .propose ∨ k = .refuse ∨ k = .informDone ∨
        k = .informResult ∨ k = .failure)) := by
  decide

/-- C5: constructing a ContractNet with an empty contractor list fails
with a construction-time validation error; no `Except.ok` net is produced,
and since CFPs are built only by `requestCFPs` on a constructed net, the
failure precedes any message. -/
theorem C5_empty_contractors (manager : Agent) (cs : List Agent)
    (h : cs = []) :
    ContractNet.build manager cs =
      Except.error "ValidationError: contractors: ensure this value has at least 1 items" ∧
      ∀ net : ContractNet, ContractNet.build manager cs ≠ Except.ok net := by
  subst h
  refine ⟨rfl, ?_⟩
  intro net hn
  simp [ContractNet.build] at hn

/-- C5 witness: a concrete empty-contractor construction fails. -/
theorem C5_empty_contractors_witness :
    ContractNet.build ⟨"manager"⟩ [] =
      Except.error "ValidationError: contractors: ensure this value has at least 1 items" :=
  (C5_empty_contractors ⟨"manager"⟩ [] rfl).1

/-- C6: `forward(m, sender=X, receiver=Y)` keeps `method` and `metadata`
of `m` when they are not overridden, and assigns a fresh id: provided
`m.id` itself came from the generator at a different draw (and class names
contain no colon, as Python identifiers do), the new id differs from
`m.id`. -/
theorem C6_forward_frame (m : Message) (X : String) (Y : Option String)
    (cls clsm : String) (k supply : Nat)
    (hid : m.id = initId clsm "" k)
    (hc1 : ':' ∉ cls.data) (hc2 : ':' ∉ clsm.data)
    (hk : supply ≠ k) :
    (forward m (some X) (some Y) none none cls supply).method = m.method ∧
      (forward m (some X) (some Y) none none cls supply).metadata = m.metadata ∧
      (forward m (some X) (some Y) none none cls supply).id ≠ m.id := by
  refine ⟨rfl, rfl, ?_⟩
  rw [hid]
  intro heq
  exact hk (initId_inj hc1 hc2 heq).2

/-- C6 witness: forwarding a concrete generator-built message preserves
method and metadata and changes the id. -/
theorem C6_forward_frame_witness :
    sampleGen.id = initId "Message" "" 0 ∧
      ':' ∉ ("CFP" : String).data ∧ ':' ∉ ("Message" : String).data ∧
      (1 : Nat) ≠ 0 ∧
      (forward sampleGen (some "mgr") (some (some "c1")) none none "CFP" 1).method
        = sampleGen.method ∧
      (forward sampleGen (some "mgr") (some (some "c1")) none none "CFP" 1).metadata
        = sampleGen.metadata ∧
      (forward sampleGen (some "mgr") (some (some "c1")) none none "CFP" 1).id
        ≠ sampleGen.id := by
  have h := C6_forward_frame sampleGen "mgr" (some "c1") "CFP" "Message" 0 1
    rfl (by decide) (by decide) (by decide)
  exact ⟨rfl, by decide, by decide, by decide, h.1, h.2.1, h.2.2⟩

/-- C7: rendering any Message to its textual key/value form and parsing
that text back yields the original record, field by field, for all
declared fields. -/
theorem C7_textual_roundtrip (m : Message) :
    parseMessage (dumpMessage m) = some m := by
  obtain ⟨i, s, rcv, mth, rt, cnt, md⟩ := m
  simp [dumpMessage, parseMessage, parseLit_self, parseStr_pstr,
    parseOpt_popt, parseMeta_full, mk_data, List.append_assoc]

/-- C8: evaluating the modelled `message_graph` at a collection whose only
message replies to an id never seen shows it silently records the dangling
edge and returns a graph — no ReferenceError-kind failure occurs, the
builder being total. -/
theorem C8_dangling_silently_accepted :
    message_graph [⟨"m2", "bob", none, "chat", some "ghost", "hi", []⟩] =
      ⟨[("m2", "ghost")]⟩ := rfl

/-- C9: entity construction keeps a provided non-empty id unchanged,
assigns a non-empty id when none is provided, and ids assigned at distinct
generator draws are distinct (class names being colon-free, as Python
identifiers are). -/
theorem C9_entity_id (cls provided : String) (n : Nat) :
    (provided ≠ "" → initId cls provided n = provided) ∧
      initId cls "" n ≠ "" ∧
      (∀ (cls2 : String) (m : Nat), ':' ∉ cls.data → ':' ∉ cls2.data →
        n ≠ m → initId cls "" n ≠ initId cls2 "" m) := by
  refine ⟨fun hp => by simp [initId, hp], initId_ne_empty cls n, ?_⟩
  intro cls2 m hc1 hc2 hnm heq
  exact hnm (initId_inj hc1 hc2 heq).2

/-- C9 witness: concrete keeps, assigns and distinguishes. -/
theorem C9_entity_id_witness :
    ("given" : String) ≠ "" ∧
      initId "Message" "given" 0 = "given" ∧
      initId "Message" "" 0 ≠ "" ∧
      (':' ∉ ("Message" : String).data ∧ ':' ∉ ("Agent" : String).data ∧
        (0 : Nat) ≠ 1 ∧ initId "Message" "" 0 ≠ initId "Agent" "" 1) := by
  refine ⟨by decide, (C9_entity_id "Message" "given" 0).1 (by decide),
    (C9_entity_id "Message" "" 0).2.1,
    by decide, by decide, by decide,
    (C9_entity_id "Message" "" 0).2.2 "Agent" 1 (by decide) (by decide) (by decide)⟩

/-- C10: when the first choice's content has no `function_call` entry,
`parse_completion_fn_call` with `throw_error=False` still fails: the flag
only skips the assertions, and the unconditional subscription
`response["function_call"]` raises KeyError. -/
theorem C10_throw_error_false_still_fails (c : Completion) (choice : Choice)
    (fn_name : Option String)
    (h1 : c.choices.head? = some choice)
    (h2 : choice.content.lookup "function_call" = none) :
    parse_completion_fn_call c fn_name false =
      Except.error (PyErr.keyError "function_call") := by
  simp [parse_completion_fn_call, getFirst, getItem, h1, h2, bind, Except.bind,
    pure, Except.pure]

/-- C10 witness: a concrete completion whose content lacks a
`function_call` entry makes the call fail with KeyError even with
`throw_error=False`. -/
theorem C10_throw_error_false_still_fails_witness :
    ((⟨[⟨[], []⟩]⟩ : Completion).choices.head? = some ⟨[], []⟩) ∧
      ((⟨[], []⟩ : Choice).content.lookup "function_call" = none) ∧
      parse_completion_fn_call ⟨[⟨[], []⟩]⟩ none false =
        Except.error (PyErr.keyError "function_call") :=
  ⟨rfl, rfl, C10_throw_error_false_still_fails ⟨[⟨[], []⟩]⟩ ⟨[], []⟩ none rfl rfl⟩

end GenNet
